import Mathlib

/-!
Shallow embedding of the candidate-evaluation core of the HRM_LEVEL2
repository: the rate-limited retry orchestrator (`modules/ai_client.py`),
the response sanitizer and tolerant JSON parse step, the tier classifier
and fallback-reasoning generator (`modules/evaluator.py`), the ranking
function, and the rubric weight normalization and validation
(`modules/rubrics_generator.py`).

Python floats are modelled as exact rationals (`ℚ`), Python strings as
Lean `String` manipulated through their character lists, and the external
JSON decoder as an oracle parameter.  Wall-clock time is modelled by an
explicit `now` field threaded through the rate-limiter state; `time.sleep`
advances `now`.
-/

/-! ## Python string primitives (character-list based, kernel computable) -/

/-- Python substring membership test (`pat in s`) on character lists:
true when `pat` occurs contiguously. -/
def charsContain (pat : List Char) : List Char → Bool
  | [] => pat.isEmpty
  | c :: cs => pat.isPrefixOf (c :: cs) || charsContain pat cs

/-- Python `pat in s` on strings. -/
def strContains (s pat : String) : Bool := charsContain pat.data s.data

/-- Python `str.lower()`, applied per character. -/
def strLower (s : String) : String := String.mk (s.data.map Char.toLower)

/-- Python whitespace class used by `str.strip()` (ASCII part). -/
def isPySpace (c : Char) : Bool :=
  c = ' ' || c = '\t' || c = '\n' || c = '\r' || c = '\x0b' || c = '\x0c'

/-- Python `str.strip()`. -/
def pyStrip (s : String) : String :=
  String.mk (((s.data.dropWhile isPySpace).reverse.dropWhile isPySpace).reverse)

/-- Python `str.startswith(pre)`. -/
def pyStartsWith (s pre : String) : Bool := pre.data.isPrefixOf s.data

/-- Python slice `s[n:]` (character based). -/
def pyDrop (s : String) (n : ℕ) : String := String.mk (s.data.drop n)

/-- Fuel-driven worker for Python `str.split(sep)`: splits at each leftmost
non-overlapping occurrence of `sep`.  `cur` accumulates the current piece
in reverse.  The fuel is always at least `l.length + 1` at call sites, so
the fuel-exhaustion arm is never reached for a non-empty separator. -/
def splitChars (sep : List Char) : ℕ → List Char → List Char → List (List Char)
  | 0, l, cur => [cur.reverse ++ l]
  | _ + 1, [], cur => [cur.reverse]
  | fuel + 1, c :: rest, cur =>
    if sep.isPrefixOf (c :: rest) then
      cur.reverse :: splitChars sep fuel (List.drop sep.length (c :: rest)) []
    else
      splitChars sep fuel rest (c :: cur)

/-- Python `s.split(sep)` for a non-empty separator. -/
def pySplit (s sep : String) : List String :=
  (splitChars sep.data (s.data.length + 1) s.data []).map String.mk

/-- Index of the first character satisfying `p` (Python `str.find`),
`none` when absent. -/
def findFirstIdx (l : List Char) (p : Char → Bool) : Option ℕ := l.findIdx? p

/-- Index of the last character satisfying `p` (Python `str.rfind`),
`none` when absent. -/
def findLastIdx (l : List Char) (p : Char → Bool) : Option ℕ :=
  match l.reverse.findIdx? p with
  | some i => some (l.length - 1 - i)
  | none => none

/-! ## CallBudgetTracker: `modules/ai_client.py` rate limiting state

Module-level globals `_last_api_call_time`, `_api_call_count`,
`_minute_start_time` together with the current wall clock `now`. -/

def MIN_DELAY_BETWEEN_CALLS : ℚ := 4
def MAX_RETRIES : ℕ := 4
def INITIAL_RETRY_DELAY : ℚ := 15
def CALLS_PER_MINUTE_LIMIT : ℕ := 20

structure RateState where
  now : ℚ
  last_api_call_time : ℚ
  api_call_count : ℕ
  minute_start_time : ℚ
deriving DecidableEq

/-- `_reset_minute_counter`: reset the per-minute call counter once 60
seconds have elapsed since the window start. -/
def reset_minute_counter (s : RateState) : RateState :=
  if 60 ≤ s.now - s.minute_start_time then
    { s with api_call_count := 0, minute_start_time := s.now }
  else s

/-- `_wait_for_rate_limit`: per-minute quota check (cool down to the end of
the window plus 2 seconds when the quota is reached), minimum spacing
between calls, then record the granted call. -/
def wait_for_rate_limit (s : RateState) : RateState :=
  let s1 := reset_minute_counter s
  let s2 :=
    if CALLS_PER_MINUTE_LIMIT ≤ s1.api_call_count then
      let time_remaining := 60 - (s1.now - s1.minute_start_time)
      if 0 < time_remaining then
        let now2 := s1.now + (time_remaining + 2)
        { now := now2, last_api_call_time := s1.last_api_call_time,
          api_call_count := 0, minute_start_time := now2 }
      else s1
    else s1
  let s3 :=
    if s2.now - s2.last_api_call_time < MIN_DELAY_BETWEEN_CALLS then
      { s2 with now := s2.last_api_call_time + MIN_DELAY_BETWEEN_CALLS }
    else s2
  { s3 with last_api_call_time := s3.now, api_call_count := s3.api_call_count + 1 }

/-! ## RetryOrchestrator: `generate_content` -/

/-- Result of one external call of the provider. -/
inductive CallResult where
  | ok (response : String)
  | err (msg : String)
deriving DecidableEq

/-- Observable events of a `generate_content` run. -/
inductive ApiEvent where
  | acquire
  | attempt (idx : ℕ)
  | backoffSleep (seconds : ℚ)
  | timeoutSleep (seconds : ℚ)
  | resetWindow
deriving DecidableEq

/-- Terminal outcome of `generate_content`. -/
inductive GenOutcome where
  | success (response : String)
  | rateLimitExceeded (attempts : ℕ)
  | timeoutFailed (attempts : ℕ)
  | apiError (msg : String)
  | failedAll (attempts : ℕ)
deriving DecidableEq

structure GenResult where
  outcome : GenOutcome
  state : RateState
  trace : List ApiEvent
deriving DecidableEq

/-- Error classification of `generate_content`: any of the keywords
`rate`, `limit`, `429`, `quota` in the lower-cased error text. -/
def is_rate_limit_error (error_msg : String) : Bool :=
  strContains error_msg "rate" || strContains error_msg "limit" ||
  strContains error_msg "429" || strContains error_msg "quota"

/-- The `for attempt in range(max_retries)` loop body of `generate_content`.
`call` is the external provider (indexed by attempt), `jitter` the value
drawn by `random.uniform(2, 8)` before the retry of attempt `attempt`.
Fuel counts the remaining loop iterations and starts at `max_retries`. -/
def generate_content_loop (call : ℕ → CallResult) (jitter : ℕ → ℚ)
    (max_retries : ℕ) : ℕ → ℕ → RateState → List ApiEvent → GenResult
  | _, 0, s, tr => ⟨.failedAll max_retries, s, tr⟩
  | attempt, fuel + 1, s, tr =>
    let tr := tr ++ [.attempt attempt]
    match call attempt with
    | .ok response => ⟨.success response, s, tr⟩
    | .err msg =>
      let error_msg := strLower msg
      if is_rate_limit_error error_msg then
        if attempt < max_retries - 1 then
          let wait_time := INITIAL_RETRY_DELAY * 2 ^ attempt + jitter attempt
          let now2 := s.now + wait_time
          generate_content_loop call jitter max_retries (attempt + 1) fuel
            { s with now := now2, api_call_count := 0, minute_start_time := now2 }
            (tr ++ [.backoffSleep wait_time, .resetWindow])
        else ⟨.rateLimitExceeded max_retries, s, tr⟩
      else if strContains error_msg "timeout" then
        if attempt < max_retries - 1 then
          let wait_time : ℚ := 10 * ((attempt : ℚ) + 1)
          generate_content_loop call jitter max_retries (attempt + 1) fuel
            { s with now := s.now + wait_time } (tr ++ [.timeoutSleep wait_time])
        else ⟨.timeoutFailed max_retries, s, tr⟩
      else ⟨.apiError msg, s, tr⟩

/-- `generate_content(prompt, max_retries)`: one `_wait_for_rate_limit`
acquisition, then the retry loop. -/
def generate_content (call : ℕ → CallResult) (jitter : ℕ → ℚ)
    (max_retries : ℕ) (s : RateState) : GenResult :=
  let s1 := wait_for_rate_limit s
  generate_content_loop call jitter max_retries 0 max_retries s1 [.acquire]

def acquireCount (tr : List ApiEvent) : ℕ :=
  tr.countP (fun e => match e with | .acquire => true | _ => false)

def attemptCount (tr : List ApiEvent) : ℕ :=
  tr.countP (fun e => match e with | .attempt _ => true | _ => false)

def resetWindowCount (tr : List ApiEvent) : ℕ :=
  tr.countP (fun e => match e with | .resetWindow => true | _ => false)

def backoffSleeps (tr : List ApiEvent) : List ℚ :=
  tr.filterMap (fun e => match e with | .backoffSleep d => some d | _ => none)

/-! ## ResponseSanitizer and tolerant JSON parsing -/

/-- `clean_json_response`: strip markdown code fences and a stray leading
`json` tag. -/
def clean_json_response (text : String) : String :=
  if text.data.isEmpty then text
  else
    let t1 :=
      if strContains text "```json" then
        (pySplit ((pySplit text "```json").getD 1 "") "```").getD 0 ""
      else if strContains text "```" then
        let parts := pySplit text "```"
        if 3 ≤ parts.length then parts.getD 1 ""
        else if parts.length = 2 then parts.getD 1 ""
        else text
      else text
    let t2 := pyStrip t1
    if pyStartsWith t2 "json" then pyStrip (pyDrop t2 4) else t2

/-- Recovery block of `parse_json_response`: parse the slice from the
first `\x7b` to the last `\x7d` of the original text. -/
def json_recovery {α : Type} (jsonLoads : String → Option α) (text : String) : Option α :=
  match findFirstIdx text.data (fun c => c = '\x7b'),
        findLastIdx text.data (fun c => c = '\x7d') with
  | some start, some last =>
    if start < last + 1 then
      jsonLoads (String.mk ((text.data.drop start).take (last + 1 - start)))
    else none
  | _, _ => none

/-- `parse_json_response`: strict parse of the sanitized text, then the
brace-slice recovery pass, then `None`.  The strict JSON decoder
`json.loads` is an oracle returning `none` on a decode error. -/
def parse_json_response {α : Type} (jsonLoads : String → Option α) (text : String) : Option α :=
  match jsonLoads (clean_json_response text) with
  | some v => some v
  | none => json_recovery jsonLoads text

/-! ## TierClassifier: `determine_candidate_tier` -/

inductive Tier where
  | VERY_LOW | LOW | MODERATE | BEST | TOP
deriving DecidableEq

/-- Ordinal level of a tier, worst (0) to best (4). -/
def tierLevel : Tier → ℕ
  | .VERY_LOW => 0 | .LOW => 1 | .MODERATE => 2 | .BEST => 3 | .TOP => 4

/-- The seven per-category scores computed by the evaluator. -/
structure Scores where
  skills : ℚ
  tools : ℚ
  experience : ℚ
  education : ℚ
  projects : ℚ
  certifications : ℚ
  profile_quality : ℚ
deriving DecidableEq

/-- `determine_candidate_tier(overall_score, scores, ai_reasoning)`:
threshold base tier, critical-category safeguard (if/elif), then the
AI-reasoning phrase adjustment on the lower-cased rationale. -/
def determine_candidate_tier (overall_score : ℚ) (scores : Scores)
    (ai_reasoning : Option String) : Tier :=
  let tier1 :=
    if 80 ≤ overall_score then Tier.TOP
    else if 60 ≤ overall_score then Tier.BEST
    else if 40 ≤ overall_score then Tier.MODERATE
    else if 20 ≤ overall_score then Tier.LOW
    else Tier.VERY_LOW
  let critical_avg := (scores.skills + scores.tools + scores.experience) / 3
  let tier2 :=
    if critical_avg < 50 ∧ (tier1 = Tier.TOP ∨ tier1 = Tier.BEST) then Tier.MODERATE
    else if critical_avg < 30 ∧ tier1 = Tier.MODERATE then Tier.LOW
    else tier1
  match ai_reasoning with
  | none => tier2
  | some r =>
    if r.data.isEmpty then tier2
    else
      let reasoning_lower := strLower r
      if strContains reasoning_lower "strong hire" ||
          strContains reasoning_lower "excellent fit" then
        if 70 ≤ overall_score then Tier.TOP
        else if 60 ≤ overall_score then Tier.BEST
        else tier2
      else if strContains reasoning_lower "not recommended" ||
          strContains reasoning_lower "poor fit" ||
          strContains reasoning_lower "limited alignment" then
        if overall_score < 50 then Tier.LOW else Tier.MODERATE
      else tier2

/-- Tier computation as worded by the specification for the first two
steps (threshold base tier, then the critical-category safeguard read as
two mutually exclusive downgrade cases), with no rationale text. -/
def tier_from_spec (overall : ℚ) (sc : Scores) : Tier :=
  let base :=
    if 80 ≤ overall then Tier.TOP
    else if 60 ≤ overall then Tier.BEST
    else if 40 ≤ overall then Tier.MODERATE
    else if 20 ≤ overall then Tier.LOW
    else Tier.VERY_LOW
  let critical_avg := (sc.skills + sc.tools + sc.experience) / 3
  if critical_avg < 50 ∧ (base = Tier.TOP ∨ base = Tier.BEST) then Tier.MODERATE
  else if critical_avg < 30 ∧ base = Tier.MODERATE then Tier.LOW
  else base

/-! ## Fallback reasoning: `generate_fallback_reasoning` -/

/-- Items of the evaluator score dictionary in its insertion order. -/
def scoresItems (sc : Scores) : List (String × ℚ) :=
  [("skills", sc.skills), ("tools", sc.tools), ("experience", sc.experience),
   ("education", sc.education), ("projects", sc.projects),
   ("certifications", sc.certifications), ("profile_quality", sc.profile_quality)]

/-- Python `max(d, key=d.get)` over an association list: the first key
attaining the maximal value. -/
def firstMaxKey (w : List (String × ℚ)) : String :=
  match w with
  | [] => ""
  | p :: ps => (ps.foldl (fun best q => if best.2 < q.2 then q else best) p).1

/-- Stable insertion for an ascending sort by value (Python
`sorted(items, key=value)`). -/
def insertAscByValue (x : String × ℚ) : List (String × ℚ) → List (String × ℚ)
  | [] => [x]
  | y :: ys => if x.2 ≤ y.2 then x :: y :: ys else y :: insertAscByValue x ys

/-- Stable ascending sort by value. -/
def sortAscByValue : List (String × ℚ) → List (String × ℚ)
  | [] => []
  | x :: xs => insertAscByValue x (sortAscByValue xs)

/-- Python `name.replace('_', ' ')` for category names. -/
def underscoreToSpace (s : String) : String :=
  String.mk (s.data.map (fun c => if c = '_' then ' ' else c))

/-- `generate_fallback_reasoning(overall_score, scores)`.  The numeric
interpolations (`f"{x:.1f}"`) are produced by the formatting oracle
`fmt`; the literal template text is reproduced verbatim from the source. -/
def generate_fallback_reasoning (fmt : ℚ → String) (overall_score : ℚ)
    (scores : Scores) : String :=
  if 75 ≤ overall_score then
    "This candidate demonstrates strong alignment with the role requirements, achieving an overall match score of "
      ++ fmt overall_score
      ++ "%. The candidate shows particularly strong performance in key evaluation areas, with solid technical skills ("
      ++ fmt scores.skills
      ++ "%) and relevant experience ("
      ++ fmt scores.experience
      ++ "%). The profile suggests a well-rounded professional with the necessary competencies to excel in this position. Recommendation: Strong candidate for further consideration and interview."
  else if 55 ≤ overall_score then
    let best_category := firstMaxKey (scoresItems scores)
    let best_value := ((scoresItems scores).lookup best_category).getD 0
    "This candidate shows moderate alignment with the role requirements, achieving an overall match score of "
      ++ fmt overall_score
      ++ "%. While there are some areas of strength, particularly in "
      ++ underscoreToSpace best_category
      ++ " ("
      ++ fmt best_value
      ++ "%), there are also notable gaps in other critical areas. The candidate may require additional assessment to determine if they can bridge these gaps through training or on-the-job learning. Recommendation: Consider for interview with focus on addressing identified gaps."
  else
    let weak_areas := (sortAscByValue (scoresItems scores)).take 3
    let weak_names := String.intercalate ", " (weak_areas.map (fun p => underscoreToSpace p.1))
    "This candidate shows limited alignment with the role requirements, achieving an overall match score of "
      ++ fmt overall_score
      ++ "%. Significant gaps exist in multiple critical areas including "
      ++ weak_names
      ++ ". These gaps suggest the candidate may not currently possess the necessary foundation for success in this role. Recommendation: Not recommended for this position at this time; consider for alternative roles or future opportunities after skill development."

/-! ## RankingEngine: `rank_candidates` -/

/-- One evaluation result as seen by `rank_candidates`: its overall score,
an opaque identity for the remaining fields, and the rank slot. -/
structure RankedResult where
  overall_score : ℚ
  payload : ℕ
  rank : Option ℕ
deriving DecidableEq

/-- Stable insertion for a descending sort by overall score: the new,
originally earlier element goes before every element with a score less
than or equal to its own. -/
def insertByScoreDesc (x : RankedResult) : List RankedResult → List RankedResult
  | [] => [x]
  | y :: ys =>
    if y.overall_score ≤ x.overall_score then x :: y :: ys
    else y :: insertByScoreDesc x ys

/-- Python `sorted(results, key=overall_score, reverse=True)` (stable). -/
def sortByScoreDesc : List RankedResult → List RankedResult
  | [] => []
  | x :: xs => insertByScoreDesc x (sortByScoreDesc xs)

/-- `for rank, result in enumerate(sorted_results, 1): result['rank'] = rank`. -/
def assignRanks : ℕ → List RankedResult → List RankedResult
  | _, [] => []
  | n, e :: es => { e with rank := some n } :: assignRanks (n + 1) es

/-- `rank_candidates(evaluation_results)`. -/
def rank_candidates (evaluation_results : List RankedResult) : List RankedResult :=
  assignRanks 1 (sortByScoreDesc evaluation_results)

/-- Erase the rank slot, keeping score and identity. -/
def clearRank (e : RankedResult) : RankedResult := { e with rank := none }

/-! ## Rubrics: `normalize_weights` and `validate_rubrics` -/

/-- Round half to even, the rounding mode of Python `round()`. -/
def roundHalfEven (q : ℚ) : ℤ :=
  let f := ⌊q⌋
  let r := q - (f : ℚ)
  if r < 1/2 then f
  else if 1/2 < r then f + 1
  else if f % 2 = 0 then f else f + 1

/-- Python `round(q, 2)` on the exact rational value. -/
def pyRound2 (q : ℚ) : ℚ := (roundHalfEven (q * 100) : ℚ) / 100

def weightsSum (w : List (String × ℚ)) : ℚ := (w.map Prod.snd).sum

/-- `DEFAULT_RUBRICS_WEIGHTS` from `config.py`. -/
def DEFAULT_RUBRICS_WEIGHTS : List (String × ℚ) :=
  [("skills", 25), ("tools", 25), ("experience", 20), ("education", 5),
   ("projects", 15), ("certifications", 5), ("profile_quality", 5)]

/-- `normalize_weights(weights)`: proportional rescale to 100 with
two-decimal rounding, rounding remainder assigned to the first key of
maximal weight; a zero-sum input is replaced by the default weights. -/
def normalize_weights (weights : List (String × ℚ)) : List (String × ℚ) :=
  let total := weightsSum weights
  if total = 0 then DEFAULT_RUBRICS_WEIGHTS
  else
    let normalized := weights.map (fun p => (p.1, pyRound2 (p.2 / total * 100)))
    let diff := 100 - weightsSum normalized
    if diff ≠ 0 then
      let max_key := firstMaxKey normalized
      normalized.map (fun p => if p.1 = max_key then (p.1, p.2 + diff) else p)
    else normalized

def REQUIRED_WEIGHT_KEYS : List String :=
  ["skills", "tools", "experience", "education", "projects",
   "certifications", "profile_quality"]

/-- Failure reports of `validate_rubrics` (the message strings of the
source, with their interpolated data). -/
inductive ValidationIssue where
  | missingWeightsKey
  | missingKey (k : String)
  | badSum (total : ℚ)
  | negativeWeight (k : String) (v : ℚ)
  | valid
deriving DecidableEq

/-- `validate_rubrics(rubrics)`: returns a flag and a message; it never
raises. `none` models a rubrics dictionary without a `weights` key. -/
def validate_rubrics (weights : Option (List (String × ℚ))) : Bool × ValidationIssue :=
  match weights with
  | none => (false, .missingWeightsKey)
  | some w =>
    match REQUIRED_WEIGHT_KEYS.find? (fun k => !((w.map Prod.fst).contains k)) with
    | some k => (false, .missingKey k)
    | none =>
      let total := weightsSum w
      if 1/10 < |total - 100| then (false, .badSum total)
      else
        match w.find? (fun p => p.2 < 0) with
        | some p => (false, .negativeWeight p.1 p.2)
        | none => (true, .valid)

/-! ## Theorems -/

/-! ### Helper lemmas on the string primitives -/

theorem charsContain_nil_of_isEmpty (pat : List Char) (h : pat.isEmpty = true) :
    ∀ l : List Char, charsContain pat l = true := by
  intro l
  induction l with
  | nil => simpa [charsContain] using h
  | cons c cs ih =>
    have hp : pat = [] := by cases pat <;> simp_all
    subst hp
    simp [charsContain, List.isPrefixOf]

theorem isPrefixOf_append_left (pat l t : List Char)
    (h : pat.isPrefixOf l = true) : pat.isPrefixOf (l ++ t) = true := by
  rw [List.isPrefixOf_iff_prefix] at h ⊢
  exact h.trans (l.prefix_append t)

theorem charsContain_append_left (pat l t : List Char)
    (h : charsContain pat l = true) : charsContain pat (l ++ t) = true := by
  induction l with
  | nil =>
    simp only [charsContain] at h
    exact charsContain_nil_of_isEmpty pat h t
  | cons c cs ih =>
    simp only [charsContain, Bool.or_eq_true] at h
    rcases h with h | h
    · simp only [List.cons_append, charsContain, Bool.or_eq_true]
      exact Or.inl (isPrefixOf_append_left pat (c :: cs) t h)
    · simp only [List.cons_append, charsContain, Bool.or_eq_true]
      exact Or.inr (ih h)

theorem strContains_append_left (a b pat : String)
    (h : strContains a pat = true) : strContains (a ++ b) pat = true := by
  simp only [strContains, String.data_append]
  exact charsContain_append_left pat.data a.data b.data h

theorem strLower_append (a b : String) : strLower (a ++ b) = strLower a ++ strLower b := by
  apply String.ext
  simp [strLower, String.data_append]

theorem append_data_isEmpty_false (a b : String) (h : b.data.isEmpty = false) :
    (a ++ b).data.isEmpty = false := by
  rw [String.data_append]
  cases ha : a.data with
  | nil => simpa using h
  | cons c cs => simp

/-! ### C3: base tier thresholds and critical-category safeguard -/

/-- Claim C3: with no rationale text, the tier equals the base tier from
the overall-score thresholds (80/60/40/20) downgraded by the
critical-category safeguard, read as two mutually exclusive cases: a
base tier of Top or Best with skills/tools/experience average below 50
becomes Moderate, and a base tier of Moderate with that average below 30
becomes Low; in particular overall 85 with critical average 40 yields
Moderate, not Top. -/
theorem determine_candidate_tier_matches_spec (overall : ℚ) (sc : Scores) :
    determine_candidate_tier overall sc none = tier_from_spec overall sc ∧
    determine_candidate_tier 85 ⟨40, 40, 40, 100, 100, 100, 100⟩ none = Tier.MODERATE := by
  refine ⟨rfl, by with_unfolding_all decide⟩

/-! ### C9: zero-sum weights are silently defaulted, never raised on -/

/-- Claim C9 counterexample: on the all-zero weight map over the seven
required categories, `normalize_weights` silently returns the default
weight set (and `validate_rubrics` merely returns a failure flag); no
ConfigurationError exists anywhere in the repository, contradicting the
claim that zero-sum weights raise rather than default. -/
theorem normalize_weights_zero_sum_defaults_example :
    normalize_weights (REQUIRED_WEIGHT_KEYS.map (fun k => (k, (0 : ℚ)))) =
      DEFAULT_RUBRICS_WEIGHTS ∧
    (validate_rubrics (some (REQUIRED_WEIGHT_KEYS.map (fun k => (k, (0 : ℚ)))))).1 = false := by
  with_unfolding_all decide

/-- Claim C9 amended: a weight map whose values sum to zero is silently
replaced by a copy of `DEFAULT_RUBRICS_WEIGHTS` inside
`normalize_weights`; `validate_rubrics` reports failure through its
returned flag instead of raising. -/
theorem normalize_weights_zero_sum_defaults (w : List (String × ℚ))
    (h : weightsSum w = 0) :
    normalize_weights w = DEFAULT_RUBRICS_WEIGHTS ∧
    (validate_rubrics (some w)).1 = false := by
  constructor
  · simp [normalize_weights, h]
  · simp only [validate_rubrics]
    cases hf : REQUIRED_WEIGHT_KEYS.find? (fun k => !((w.map Prod.fst).contains k)) with
    | some k => simp
    | none =>
      rw [h]
      have : (1 : ℚ)/10 < |(0 : ℚ) - 100| := by norm_num
      rw [if_pos this]

/-- Witness for the amended C9 at the concrete all-zero weight map. -/
theorem normalize_weights_zero_sum_defaults_witness :
    weightsSum [("skills", (0 : ℚ)), ("tools", 0)] = 0 ∧
    normalize_weights [("skills", (0 : ℚ)), ("tools", 0)] = DEFAULT_RUBRICS_WEIGHTS ∧
    (validate_rubrics (some [("skills", (0 : ℚ)), ("tools", 0)])).1 = false := by
  have h0 : weightsSum [("skills", (0 : ℚ)), ("tools", 0)] = 0 := by
    with_unfolding_all decide
  have h := normalize_weights_zero_sum_defaults [("skills", (0 : ℚ)), ("tools", 0)] h0
  exact ⟨h0, h.1, h.2⟩

/-! ### C1: the rate-limit wait happens once, not before every attempt -/

def c1_call : ℕ → CallResult :=
  fun n => if n = 0 then .err "Error code: 429 - rate limit reached" else .ok "parsed"

def c1_jitter : ℕ → ℚ := fun _ => 5

/-- Claim C1 counterexample: a run of `generate_content` in which attempt 1
fails with a rate-limit error and attempt 2 succeeds performs two
attempts but only one `_wait_for_rate_limit` acquisition, so the
call-budget acquire step is not performed before every attempt. -/
theorem generate_content_retry_without_reacquire :
    attemptCount (generate_content c1_call c1_jitter 4 ⟨1000, 0, 0, 1000⟩).trace = 2 ∧
    acquireCount (generate_content c1_call c1_jitter 4 ⟨1000, 0, 0, 1000⟩).trace = 1 := by
  with_unfolding_all decide

theorem acquireCount_append (tr ev : List ApiEvent) :
    acquireCount (tr ++ ev) = acquireCount tr + acquireCount ev := by
  simp [acquireCount, List.countP_append]

theorem generate_content_loop_no_acquire (call : ℕ → CallResult) (jitter : ℕ → ℚ)
    (max_retries : ℕ) :
    ∀ fuel attempt s tr,
      acquireCount (generate_content_loop call jitter max_retries attempt fuel s tr).trace =
        acquireCount tr := by
  intro fuel
  induction fuel with
  | zero => intro attempt s tr; rfl
  | succ n ih =>
    intro attempt s tr
    simp only [generate_content_loop]
    cases call attempt with
    | ok r => simp [acquireCount_append, acquireCount]
    | err msg =>
      by_cases h1 : is_rate_limit_error (strLower msg) = true
      · simp only [h1, if_true]
        by_cases h2 : attempt < max_retries - 1
        · simp only [h2, if_true, ih, acquireCount_append]
          simp [acquireCount]
        · simp only [h2, if_false]
          simp [acquireCount_append, acquireCount]
      · simp only [Bool.not_eq_true] at h1
        simp only [h1, Bool.false_eq_true, if_false]
        by_cases h3 : strContains (strLower msg) "timeout" = true
        · simp only [h3, if_true]
          by_cases h2 : attempt < max_retries - 1
          · simp only [h2, if_true, ih, acquireCount_append]
            simp [acquireCount]
          · simp only [h2, if_false]
            simp [acquireCount_append, acquireCount]
        · simp only [Bool.not_eq_true] at h3
          simp only [h3, Bool.false_eq_true, if_false]
          simp [acquireCount_append, acquireCount]

/-- Claim C1 amended: `generate_content` performs the rate-limit
acquisition exactly once per invocation, before the first attempt; retry
attempts rerun the external call without re-acquiring (they only sleep
for the backoff and reset the tracker window). -/
theorem generate_content_acquires_once (call : ℕ → CallResult) (jitter : ℕ → ℚ)
    (max_retries : ℕ) (s : RateState) :
    acquireCount (generate_content call jitter max_retries s).trace = 1 := by
  unfold generate_content
  rw [generate_content_loop_no_acquire]
  rfl

/-! ### C7: tolerant JSON parse failure chain -/

/-- Claim C7: when the strict JSON parse of the sanitized text fails,
`parse_json_response` falls back to the recovery pass on the slice from
the first opening brace to the last closing brace of the original text,
and only when that also fails does the caller receive the hard parse
failure `none` (never an exception and never a fabricated value). -/
theorem parse_json_response_failure_chain {α : Type} (jsonLoads : String → Option α)
    (text : String) (h : jsonLoads (clean_json_response text) = none) :
    parse_json_response jsonLoads text = json_recovery jsonLoads text ∧
    (json_recovery jsonLoads text = none → parse_json_response jsonLoads text = none) := by
  constructor
  · simp [parse_json_response, h]
  · intro hrec
    simp [parse_json_response, h, hrec]

/-- Witness for C7: a strict-parse failure where the recovery pass finds
and parses the brace-delimited slice, and a total failure that surfaces
`none`. -/
theorem parse_json_response_failure_chain_witness :
    ((fun s => if s = "no structure here" then none else none) (clean_json_response "no structure here") = (none : Option ℕ)) ∧
    parse_json_response (fun s => if s = "no structure here" then none else none) "no structure here" = (none : Option ℕ) := by
  have h : (fun s => if s = "no structure here" then none else none)
      (clean_json_response "no structure here") = (none : Option ℕ) := by
    with_unfolding_all decide
  have hrec : json_recovery (fun s => if s = "no structure here" then none else none)
      "no structure here" = (none : Option ℕ) := by
    with_unfolding_all decide
  exact ⟨h, (parse_json_response_failure_chain _ "no structure here" h).2 hrec⟩

/-! ### C4: the phrase adjustment can override the safeguard -/

/-- Claim C4 counterexample: with overall 85 and critical average 40 the
safeguard yields Moderate, yet a rationale containing the strong-positive
phrase promotes the tier directly to Top — two ordinal steps above
Moderate — so the free-text adjustment does override the
critical-category safeguard and moves the tier by more than one step. -/
theorem phrase_promotion_overrides_safeguard_example :
    determine_candidate_tier 85 ⟨40, 40, 40, 100, 100, 100, 100⟩ none = Tier.MODERATE ∧
    determine_candidate_tier 85 ⟨40, 40, 40, 100, 100, 100, 100⟩
      (some "Verdict: this is a Strong Hire.") = Tier.TOP ∧
    tierLevel Tier.TOP = tierLevel Tier.MODERATE + 2 := by
  refine ⟨by with_unfolding_all decide, ?_, by decide⟩
  with_unfolding_all decide

/-- Claim C4 amended: the free-text adjustment is not limited to one
ordinal step and does not respect the critical-category safeguard: for
every candidate with overall at least 70 whose skills/tools/experience
average is below 50 — whose safeguarded tier is therefore Moderate — a
non-empty rationale containing a strong-positive phrase promotes the
tier directly to Top.  This covers both safeguard-downgraded base tiers:
Top (overall at least 80) and Best (overall in [70, 80)). -/
theorem strong_phrase_promotes_to_top (overall : ℚ) (sc : Scores) (r : String)
    (hne : r.data.isEmpty = false)
    (hpos : strContains (strLower r) "strong hire" = true)
    (h70 : 70 ≤ overall)
    (havg : (sc.skills + sc.tools + sc.experience) / 3 < 50) :
    determine_candidate_tier overall sc (some r) = Tier.TOP ∧
    determine_candidate_tier overall sc none = Tier.MODERATE := by
  constructor
  · simp only [determine_candidate_tier, hne, hpos, Bool.true_or, if_true,
      Bool.false_eq_true, if_false, if_pos h70]
  · by_cases h80 : (80 : ℚ) ≤ overall
    · have htier1 : (if (80 : ℚ) ≤ overall then Tier.TOP
          else if (60 : ℚ) ≤ overall then Tier.BEST
          else if (40 : ℚ) ≤ overall then Tier.MODERATE
          else if (20 : ℚ) ≤ overall then Tier.LOW
          else Tier.VERY_LOW) = Tier.TOP := if_pos h80
      simp only [determine_candidate_tier]
      rw [htier1]
      exact if_pos ⟨havg, Or.inl rfl⟩
    · have h60 : (60 : ℚ) ≤ overall := by linarith
      have htier1 : (if (80 : ℚ) ≤ overall then Tier.TOP
          else if (60 : ℚ) ≤ overall then Tier.BEST
          else if (40 : ℚ) ≤ overall then Tier.MODERATE
          else if (20 : ℚ) ≤ overall then Tier.LOW
          else Tier.VERY_LOW) = Tier.BEST := by
        rw [if_neg h80, if_pos h60]
      simp only [determine_candidate_tier]
      rw [htier1]
      exact if_pos ⟨havg, Or.inr rfl⟩

/-- Witness for the amended C4 at overall 75 (base tier Best, in the
[70, 80) range), critical average 40 and the rationale "strong hire". -/
theorem strong_phrase_promotes_to_top_witness :
    ("strong hire".data.isEmpty = false) ∧
    (strContains (strLower "strong hire") "strong hire" = true) ∧
    ((70 : ℚ) ≤ 75) ∧
    (((40 : ℚ) + 40 + 40) / 3 < 50) ∧
    determine_candidate_tier 75 ⟨40, 40, 40, 100, 100, 100, 100⟩ (some "strong hire") = Tier.TOP ∧
    determine_candidate_tier 75 ⟨40, 40, 40, 100, 100, 100, 100⟩ none = Tier.MODERATE := by
  have h1 : "strong hire".data.isEmpty = false := by with_unfolding_all decide
  have h2 : strContains (strLower "strong hire") "strong hire" = true := by
    with_unfolding_all decide
  have h3 : (70 : ℚ) ≤ 75 := by norm_num
  have h4 : ((40 : ℚ) + 40 + 40) / 3 < 50 := by norm_num
  have h := strong_phrase_promotes_to_top 75 ⟨40, 40, 40, 100, 100, 100, 100⟩
    "strong hire" h1 h2 h3 h4
  exact ⟨h1, h2, h3, h4, h.1, h.2⟩

/-! ### C2: per-minute quota invariant of the call-budget tracker -/

theorem reset_minute_counter_window (s : RateState) :
    (reset_minute_counter s).now - (reset_minute_counter s).minute_start_time < 60 := by
  unfold reset_minute_counter
  split_ifs with h
  · show s.now - s.now < 60
    rw [sub_self]
    norm_num
  · show s.now - s.minute_start_time < 60
    linarith [not_le.mp h]

/-- Claim C2: after every `_wait_for_rate_limit` acquisition the
calls-issued-in-window counter is at most `CALLS_PER_MINUTE_LIMIT`; the
counter resets to zero (with the window start advanced to now) once 60
seconds have elapsed since the window start; and when the counter has
reached the limit the caller is blocked until past the end of the
60-second window, so the granted call time lies beyond it. -/
theorem wait_for_rate_limit_quota_invariant (s : RateState) :
    (wait_for_rate_limit s).api_call_count ≤ CALLS_PER_MINUTE_LIMIT ∧
    (60 ≤ s.now - s.minute_start_time →
      (reset_minute_counter s).api_call_count = 0 ∧
      (reset_minute_counter s).minute_start_time = s.now) ∧
    (CALLS_PER_MINUTE_LIMIT ≤ (reset_minute_counter s).api_call_count →
      (reset_minute_counter s).minute_start_time + 60 ≤
        (wait_for_rate_limit s).last_api_call_time) := by
  have hwin := reset_minute_counter_window s
  refine ⟨?_, ?_, ?_⟩
  · simp only [wait_for_rate_limit]
    split_ifs with h1 h2 h3 <;>
      simp_all [CALLS_PER_MINUTE_LIMIT] <;> omega
  · intro h
    unfold reset_minute_counter
    rw [if_pos h]
    exact ⟨rfl, rfl⟩
  · intro h
    simp only [wait_for_rate_limit]
    split_ifs with h1 h2 h3 <;>
      simp_all [CALLS_PER_MINUTE_LIMIT, MIN_DELAY_BETWEEN_CALLS] <;> linarith

/-- Witness for C2: a state past the window boundary (counter resets) and
a state at the quota limit (grant pushed past the window end, counter
back at 1). -/
theorem wait_for_rate_limit_quota_invariant_witness :
    ((60 : ℚ) ≤ (1070 : ℚ) - 1000) ∧
    (reset_minute_counter ⟨1070, 0, 5, 1000⟩).api_call_count = 0 ∧
    (reset_minute_counter ⟨1070, 0, 5, 1000⟩).minute_start_time = 1070 ∧
    (CALLS_PER_MINUTE_LIMIT ≤ (reset_minute_counter ⟨1030, 1029, 20, 1000⟩).api_call_count) ∧
    (reset_minute_counter ⟨1030, 1029, 20, 1000⟩).minute_start_time + 60 ≤
      (wait_for_rate_limit ⟨1030, 1029, 20, 1000⟩).last_api_call_time ∧
    (wait_for_rate_limit ⟨1030, 1029, 20, 1000⟩).api_call_count ≤ CALLS_PER_MINUTE_LIMIT := by
  have hb : (60 : ℚ) ≤ (1070 : ℚ) - 1000 := by norm_num
  have hc : CALLS_PER_MINUTE_LIMIT ≤ (reset_minute_counter ⟨1030, 1029, 20, 1000⟩).api_call_count := by
    with_unfolding_all decide
  have h1 := wait_for_rate_limit_quota_invariant ⟨1070, 0, 5, 1000⟩
  have h2 := wait_for_rate_limit_quota_invariant ⟨1030, 1029, 20, 1000⟩
  exact ⟨hb, (h1.2.1 hb).1, (h1.2.1 hb).2, hc, h2.2.2 hc, h2.1⟩

/-! ### C6: stable dense ranking -/

theorem mem_insertByScoreDesc {a x : RankedResult} {l : List RankedResult}
    (h : a ∈ insertByScoreDesc x l) : a = x ∨ a ∈ l := by
  induction l with
  | nil => simpa [insertByScoreDesc] using h
  | cons y ys ih =>
    by_cases hle : y.overall_score ≤ x.overall_score
    · have heq : insertByScoreDesc x (y :: ys) = x :: y :: ys := by
        simp [insertByScoreDesc, hle]
      rw [heq] at h
      rcases List.mem_cons.mp h with h1 | h1
      · exact Or.inl h1
      · exact Or.inr h1
    · have heq : insertByScoreDesc x (y :: ys) = y :: insertByScoreDesc x ys := by
        simp [insertByScoreDesc, hle]
      rw [heq] at h
      rcases List.mem_cons.mp h with h1 | h1
      · exact Or.inr (by simp [h1])
      · rcases ih h1 with h2 | h2
        · exact Or.inl h2
        · exact Or.inr (by simp [h2])

theorem pairwise_insertByScoreDesc {x : RankedResult} {l : List RankedResult}
    (h : l.Pairwise (fun a b => b.overall_score ≤ a.overall_score)) :
    (insertByScoreDesc x l).Pairwise (fun a b => b.overall_score ≤ a.overall_score) := by
  induction l with
  | nil => simp [insertByScoreDesc]
  | cons y ys ih =>
    rcases List.pairwise_cons.mp h with ⟨hy, hys⟩
    unfold insertByScoreDesc
    split_ifs with hle
    · refine List.Pairwise.cons ?_ h
      intro b hb
      rcases List.mem_cons.mp hb with rfl | hb
      · exact hle
      · exact le_trans (hy b hb) hle
    · refine List.Pairwise.cons ?_ (ih hys)
      intro b hb
      rcases mem_insertByScoreDesc hb with rfl | hb
      · exact le_of_lt (not_le.mp hle)
      · exact hy b hb

theorem sortByScoreDesc_sorted (l : List RankedResult) :
    (sortByScoreDesc l).Pairwise (fun a b => b.overall_score ≤ a.overall_score) := by
  induction l with
  | nil => simp [sortByScoreDesc]
  | cons x xs ih => exact pairwise_insertByScoreDesc ih

theorem insertByScoreDesc_perm (x : RankedResult) (l : List RankedResult) :
    (insertByScoreDesc x l).Perm (x :: l) := by
  induction l with
  | nil => simp [insertByScoreDesc]
  | cons y ys ih =>
    unfold insertByScoreDesc
    split_ifs with hle
    · exact List.Perm.refl _
    · exact (ih.cons y).trans (List.Perm.swap x y ys)

theorem sortByScoreDesc_perm (l : List RankedResult) :
    (sortByScoreDesc l).Perm l := by
  induction l with
  | nil => simp [sortByScoreDesc]
  | cons x xs ih =>
    exact (insertByScoreDesc_perm x (sortByScoreDesc xs)).trans (ih.cons x)

theorem filter_insertByScoreDesc (x : RankedResult) (l : List RankedResult) (q : ℚ) :
    (insertByScoreDesc x l).filter (fun e => decide (e.overall_score = q)) =
      if x.overall_score = q then
        x :: l.filter (fun e => decide (e.overall_score = q))
      else l.filter (fun e => decide (e.overall_score = q)) := by
  induction l with
  | nil =>
    by_cases hxq : x.overall_score = q
    · rw [if_pos hxq]
      simp [insertByScoreDesc, List.filter_cons, hxq]
    · rw [if_neg hxq]
      simp [insertByScoreDesc, List.filter_cons, hxq]
  | cons y ys ih =>
    by_cases hle : y.overall_score ≤ x.overall_score
    · have heq : insertByScoreDesc x (y :: ys) = x :: y :: ys := by
        simp [insertByScoreDesc, hle]
      rw [heq]
      by_cases hxq : x.overall_score = q
      · rw [if_pos hxq]
        simp [List.filter_cons, hxq]
      · rw [if_neg hxq]
        simp [List.filter_cons, hxq]
    · have heq : insertByScoreDesc x (y :: ys) = y :: insertByScoreDesc x ys := by
        simp [insertByScoreDesc, hle]
      rw [heq]
      have hgt : x.overall_score < y.overall_score := not_le.mp hle
      by_cases hxq : x.overall_score = q
      · have hyq : ¬ y.overall_score = q := by
          intro hc
          rw [hxq] at hgt
          rw [hc] at hgt
          exact lt_irrefl q hgt
        rw [if_pos hxq]
        simp only [List.filter_cons]
        rw [ih, if_pos hxq]
        simp [hyq]
      · rw [if_neg hxq]
        simp only [List.filter_cons]
        rw [ih, if_neg hxq]

theorem filter_sortByScoreDesc (l : List RankedResult) (q : ℚ) :
    (sortByScoreDesc l).filter (fun e => decide (e.overall_score = q)) =
      l.filter (fun e => decide (e.overall_score = q)) := by
  induction l with
  | nil => simp [sortByScoreDesc]
  | cons x xs ih =>
    show (insertByScoreDesc x (sortByScoreDesc xs)).filter _ = _
    rw [filter_insertByScoreDesc]
    by_cases hxq : x.overall_score = q <;>
      simp [List.filter_cons, hxq, ih]

theorem assignRanks_map_clearRank (n : ℕ) (l : List RankedResult) :
    (assignRanks n l).map clearRank = l.map clearRank := by
  induction l generalizing n with
  | nil => rfl
  | cons e es ih => simp [assignRanks, clearRank, ih]

theorem assignRanks_map_score (n : ℕ) (l : List RankedResult) :
    (assignRanks n l).map (fun e => e.overall_score) = l.map (fun e => e.overall_score) := by
  induction l generalizing n with
  | nil => rfl
  | cons e es ih => simp [assignRanks, ih]

theorem assignRanks_map_rank (n : ℕ) (l : List RankedResult) :
    (assignRanks n l).map (fun e => e.rank) =
      (List.range l.length).map (fun i => some (n + i)) := by
  induction l generalizing n with
  | nil => rfl
  | cons e es ih =>
    simp only [assignRanks, List.map_cons, List.length_cons, ih,
      List.range_succ_eq_map, List.map_map]
    refine congrArg₂ _ (by simp) ?_
    exact List.map_congr_left (fun i _ => by simp [Function.comp]; omega)

theorem assignRanks_filter_clearRank (n : ℕ) (l : List RankedResult) (q : ℚ) :
    ((assignRanks n l).filter (fun e => decide (e.overall_score = q))).map clearRank =
      (l.filter (fun e => decide (e.overall_score = q))).map clearRank := by
  induction l generalizing n with
  | nil => rfl
  | cons e es ih =>
    by_cases he : e.overall_score = q <;>
      simp [assignRanks, List.filter_cons, he, clearRank, ih]

/-- Claim C6: `rank_candidates` sorts by overall score descending
(stable: for every score value, the entries carrying it keep their
original relative order and their fields other than rank unchanged),
assigns ranks 1..n positionally with no gaps and no shared ranks, does
not mutate score fields (the rank-cleared output is a permutation of the
rank-cleared input), and on scores 90, 90, 70 yields ranks 1, 2, 3 with
the tied pair in original order. -/
theorem rank_candidates_stable_dense (l : List RankedResult) :
    ((rank_candidates l).map (fun e => e.overall_score)).Pairwise (fun a b => b ≤ a) ∧
    (rank_candidates l).map (fun e => e.rank) =
      (List.range l.length).map (fun i => some (i + 1)) ∧
    (∀ q : ℚ,
      ((rank_candidates l).filter (fun e => decide (e.overall_score = q))).map clearRank =
        (l.filter (fun e => decide (e.overall_score = q))).map clearRank) ∧
    ((rank_candidates l).map clearRank).Perm (l.map clearRank) ∧
    rank_candidates [⟨90, 0, none⟩, ⟨90, 1, none⟩, ⟨70, 2, none⟩] =
      [⟨90, 0, some 1⟩, ⟨90, 1, some 2⟩, ⟨70, 2, some 3⟩] := by
  refine ⟨?_, ?_, ?_, ?_, by with_unfolding_all decide⟩
  · unfold rank_candidates
    rw [assignRanks_map_score]
    rw [List.pairwise_map]
    exact sortByScoreDesc_sorted l
  · unfold rank_candidates
    rw [assignRanks_map_rank]
    have hlen : (sortByScoreDesc l).length = l.length :=
      (sortByScoreDesc_perm l).length_eq
    rw [hlen]
    exact List.map_congr_left (fun i _ => congrArg some (by omega))
  · intro q
    unfold rank_candidates
    rw [assignRanks_filter_clearRank, filter_sortByScoreDesc]
  · unfold rank_candidates
    rw [assignRanks_map_clearRank]
    exact (sortByScoreDesc_perm l).map clearRank

/-! ### C10: local fallback text forces a tier downgrade -/

theorem fallback_low_branch (fmt : ℚ → String) (overall : ℚ) (sc : Scores)
    (h55 : overall < 55) :
    generate_fallback_reasoning fmt overall sc =
      "This candidate shows limited alignment with the role requirements, achieving an overall match score of "
        ++ fmt overall
        ++ "%. Significant gaps exist in multiple critical areas including "
        ++ String.intercalate ", "
            (((sortAscByValue (scoresItems sc)).take 3).map (fun p => underscoreToSpace p.1))
        ++ ". These gaps suggest the candidate may not currently possess the necessary foundation for success in this role. Recommendation: Not recommended for this position at this time; consider for alternative roles or future opportunities after skill development." := by
  have h75 : ¬ (75 : ℚ) ≤ overall := by linarith
  have h55n : ¬ (55 : ℚ) ≤ overall := by linarith
  simp only [generate_fallback_reasoning, h75, h55n, if_false]

/-- Claim C10: for overall below 55 the locally generated fallback
rationale contains the phrase "limited alignment", which the tier
classifier reads as a strong-negative phrase, so the final tier is Low
when overall is below 50 and Moderate otherwise; in particular a
candidate with overall in [40, 50) and critical-category average at
least 50, who would be Moderate without a rationale, is downgraded to
Low solely because the fallback text was used. -/
theorem fallback_reasoning_forces_low_or_moderate (fmt : ℚ → String) (overall : ℚ)
    (sc : Scores) (h55 : overall < 55)
    (hp1 : strContains (strLower (generate_fallback_reasoning fmt overall sc)) "strong hire" = false)
    (hp2 : strContains (strLower (generate_fallback_reasoning fmt overall sc)) "excellent fit" = false) :
    strContains (strLower (generate_fallback_reasoning fmt overall sc)) "limited alignment" = true ∧
    determine_candidate_tier overall sc (some (generate_fallback_reasoning fmt overall sc)) =
      (if overall < 50 then Tier.LOW else Tier.MODERATE) ∧
    (40 ≤ overall → overall < 50 → 50 ≤ (sc.skills + sc.tools + sc.experience) / 3 →
      determine_candidate_tier overall sc none = Tier.MODERATE ∧
      determine_candidate_tier overall sc
        (some (generate_fallback_reasoning fmt overall sc)) = Tier.LOW) := by
  have heq := fallback_low_branch fmt overall sc h55
  have hlim : strContains (strLower (generate_fallback_reasoning fmt overall sc))
      "limited alignment" = true := by
    rw [heq]
    simp only [strLower_append]
    apply strContains_append_left
    apply strContains_append_left
    apply strContains_append_left
    apply strContains_append_left
    with_unfolding_all decide
  have hne : (generate_fallback_reasoning fmt overall sc).data.isEmpty = false := by
    rw [heq]
    apply append_data_isEmpty_false
    with_unfolding_all decide
  have hmain : determine_candidate_tier overall sc
      (some (generate_fallback_reasoning fmt overall sc)) =
      (if overall < 50 then Tier.LOW else Tier.MODERATE) := by
    simp only [determine_candidate_tier, hne, hp1, hp2, hlim, Bool.false_eq_true,
      if_false, Bool.or_false, Bool.false_or, Bool.or_true, if_true]
  refine ⟨hlim, hmain, ?_⟩
  intro h40 h50 havg
  constructor
  · have htier1 : (if (80 : ℚ) ≤ overall then Tier.TOP
        else if (60 : ℚ) ≤ overall then Tier.BEST
        else if (40 : ℚ) ≤ overall then Tier.MODERATE
        else if (20 : ℚ) ≤ overall then Tier.LOW
        else Tier.VERY_LOW) = Tier.MODERATE := by
      rw [if_neg (by linarith : ¬ (80 : ℚ) ≤ overall),
        if_neg (by linarith : ¬ (60 : ℚ) ≤ overall), if_pos h40]
    have hc1 : ¬ ((sc.skills + sc.tools + sc.experience) / 3 < 50 ∧
        (Tier.MODERATE = Tier.TOP ∨ Tier.MODERATE = Tier.BEST)) := by
      rintro ⟨h1, h2 | h2⟩ <;> exact absurd h2 (by decide)
    have hc2 : ¬ ((sc.skills + sc.tools + sc.experience) / 3 < 30 ∧
        Tier.MODERATE = Tier.MODERATE) := by
      rintro ⟨h1, h2⟩
      linarith
    simp only [determine_candidate_tier]
    rw [htier1, if_neg hc1, if_neg hc2]
  · rw [hmain, if_pos h50]

set_option maxRecDepth 100000 in
/-- Witness for C10 at overall 42 with healthy critical categories. -/
theorem fallback_reasoning_forces_low_or_moderate_witness :
    ((42 : ℚ) < 55) ∧
    (strContains (strLower (generate_fallback_reasoning (fun _ => "42.0") 42
      ⟨60, 60, 60, 10, 10, 10, 10⟩)) "strong hire" = false) ∧
    (strContains (strLower (generate_fallback_reasoning (fun _ => "42.0") 42
      ⟨60, 60, 60, 10, 10, 10, 10⟩)) "excellent fit" = false) ∧
    (strContains (strLower (generate_fallback_reasoning (fun _ => "42.0") 42
      ⟨60, 60, 60, 10, 10, 10, 10⟩)) "limited alignment" = true) ∧
    determine_candidate_tier 42 ⟨60, 60, 60, 10, 10, 10, 10⟩
      (some (generate_fallback_reasoning (fun _ => "42.0") 42
        ⟨60, 60, 60, 10, 10, 10, 10⟩)) = Tier.LOW ∧
    determine_candidate_tier 42 ⟨60, 60, 60, 10, 10, 10, 10⟩ none = Tier.MODERATE := by
  have h55 : (42 : ℚ) < 55 := by norm_num
  have hp1 : strContains (strLower (generate_fallback_reasoning (fun _ => "42.0") 42
      ⟨60, 60, 60, 10, 10, 10, 10⟩)) "strong hire" = false := by
    with_unfolding_all decide
  have hp2 : strContains (strLower (generate_fallback_reasoning (fun _ => "42.0") 42
      ⟨60, 60, 60, 10, 10, 10, 10⟩)) "excellent fit" = false := by
    with_unfolding_all decide
  have h := fallback_reasoning_forces_low_or_moderate (fun _ => "42.0") 42
    ⟨60, 60, 60, 10, 10, 10, 10⟩ h55 hp1 hp2
  have h3 := h.2.2 (by norm_num) (by norm_num) (by norm_num)
  exact ⟨h55, hp1, hp2, h.1, h3.2, h3.1⟩

/-! ### C5: rate-limited retry backoff schedule -/

theorem attemptCount_append (tr ev : List ApiEvent) :
    attemptCount (tr ++ ev) = attemptCount tr + attemptCount ev := by
  simp [attemptCount, List.countP_append]

theorem generate_content_loop_attempts_le (call : ℕ → CallResult) (jitter : ℕ → ℚ)
    (max_retries : ℕ) :
    ∀ fuel attempt s tr,
      attemptCount (generate_content_loop call jitter max_retries attempt fuel s tr).trace ≤
        attemptCount tr + fuel := by
  intro fuel
  induction fuel with
  | zero => intro attempt s tr; simp [generate_content_loop]
  | succ n ih =>
    intro attempt s tr
    simp only [generate_content_loop]
    cases call attempt with
    | ok r => simp [attemptCount_append, attemptCount]
    | err msg =>
      by_cases h1 : is_rate_limit_error (strLower msg) = true
      · simp only [h1, if_true]
        by_cases h2 : attempt < max_retries - 1
        · simp only [h2, if_true]
          calc attemptCount (generate_content_loop call jitter max_retries (attempt + 1) n _
                ((tr ++ [ApiEvent.attempt attempt]) ++
                  [ApiEvent.backoffSleep (INITIAL_RETRY_DELAY * 2 ^ attempt + jitter attempt),
                   ApiEvent.resetWindow])).trace ≤ _ := ih _ _ _
            _ ≤ attemptCount tr + (n + 1) := by
                simp [attemptCount_append, attemptCount]
                omega
        · simp only [h2, if_false]
          simp [attemptCount_append, attemptCount]
      · simp only [Bool.not_eq_true] at h1
        simp only [h1, Bool.false_eq_true, if_false]
        by_cases h3 : strContains (strLower msg) "timeout" = true
        · simp only [h3, if_true]
          by_cases h2 : attempt < max_retries - 1
          · simp only [h2, if_true]
            calc attemptCount (generate_content_loop call jitter max_retries (attempt + 1) n _
                  ((tr ++ [ApiEvent.attempt attempt]) ++
                    [ApiEvent.timeoutSleep (10 * ((attempt : ℚ) + 1))])).trace ≤ _ := ih _ _ _
              _ ≤ attemptCount tr + (n + 1) := by
                  simp [attemptCount_append, attemptCount]
                  omega
          · simp only [h2, if_false]
            simp [attemptCount_append, attemptCount]
        · simp only [Bool.not_eq_true] at h3
          simp only [h3, Bool.false_eq_true, if_false]
          simp [attemptCount_append, attemptCount]

theorem generate_content_attempts_le (call : ℕ → CallResult) (jitter : ℕ → ℚ)
    (max_retries : ℕ) (s : RateState) :
    attemptCount (generate_content call jitter max_retries s).trace ≤ max_retries := by
  unfold generate_content
  have h := generate_content_loop_attempts_le call jitter max_retries max_retries 0
    (wait_for_rate_limit s) [ApiEvent.acquire]
  simpa [attemptCount] using h

/-- Claim C5: when every attempt fails with a rate-limit-classified error
(quota/429/rate/limit in the error text), `generate_content` sleeps
`INITIAL_RETRY_DELAY * 2 ^ (k - 1)` plus the bounded uniform jitter after
failed attempt k (and before retry attempt k + 1), resets the budget
tracker window after each backoff (three resets, counter left at zero),
makes exactly `MAX_RETRIES` attempts — and never more than the
configured maximum in any run — and fails with a rate-limit-exceeded
error carrying the number of attempts made. -/
theorem rate_limited_backoff_schedule (call : ℕ → CallResult) (jitter : ℕ → ℚ)
    (s : RateState)
    (hall : ∀ n, n < MAX_RETRIES →
      ∃ m, call n = CallResult.err m ∧ is_rate_limit_error (strLower m) = true)
    (hj : ∀ n, 2 ≤ jitter n ∧ jitter n ≤ 8) :
    (generate_content call jitter MAX_RETRIES s).outcome =
      GenOutcome.rateLimitExceeded MAX_RETRIES ∧
    backoffSleeps (generate_content call jitter MAX_RETRIES s).trace =
      [INITIAL_RETRY_DELAY * 2 ^ 0 + jitter 0, INITIAL_RETRY_DELAY * 2 ^ 1 + jitter 1,
       INITIAL_RETRY_DELAY * 2 ^ 2 + jitter 2] ∧
    (∀ d ∈ backoffSleeps (generate_content call jitter MAX_RETRIES s).trace,
      ∃ k, k < MAX_RETRIES - 1 ∧
        INITIAL_RETRY_DELAY * 2 ^ k + 2 ≤ d ∧ d ≤ INITIAL_RETRY_DELAY * 2 ^ k + 8) ∧
    attemptCount (generate_content call jitter MAX_RETRIES s).trace = MAX_RETRIES ∧
    resetWindowCount (generate_content call jitter MAX_RETRIES s).trace = MAX_RETRIES - 1 ∧
    (generate_content call jitter MAX_RETRIES s).state.api_call_count = 0 ∧
    (∀ (call2 : ℕ → CallResult) (jitter2 : ℕ → ℚ) (m : ℕ) (s2 : RateState),
      attemptCount (generate_content call2 jitter2 m s2).trace ≤ m) := by
  obtain ⟨m0, hc0, hr0⟩ := hall 0 (by decide)
  obtain ⟨m1, hc1, hr1⟩ := hall 1 (by decide)
  obtain ⟨m2, hc2, hr2⟩ := hall 2 (by decide)
  obtain ⟨m3, hc3, hr3⟩ := hall 3 (by decide)
  refine ⟨?_, ?_, ?_, ?_, ?_, ?_, ?_⟩
  · simp [generate_content, MAX_RETRIES, generate_content_loop, hc0, hc1, hc2, hc3,
      hr0, hr1, hr2, hr3]
  · simp [generate_content, MAX_RETRIES, generate_content_loop, hc0, hc1, hc2, hc3,
      hr0, hr1, hr2, hr3, backoffSleeps, INITIAL_RETRY_DELAY]
  · intro d hd
    have hsl : backoffSleeps (generate_content call jitter MAX_RETRIES s).trace =
        [INITIAL_RETRY_DELAY * 2 ^ 0 + jitter 0, INITIAL_RETRY_DELAY * 2 ^ 1 + jitter 1,
         INITIAL_RETRY_DELAY * 2 ^ 2 + jitter 2] := by
      simp [generate_content, MAX_RETRIES, generate_content_loop, hc0, hc1, hc2, hc3,
        hr0, hr1, hr2, hr3, backoffSleeps, INITIAL_RETRY_DELAY]
    rw [hsl] at hd
    simp only [List.mem_cons, List.not_mem_nil, or_false] at hd
    rcases hd with rfl | rfl | rfl
    · exact ⟨0, by decide, by linarith [(hj 0).1], by linarith [(hj 0).2]⟩
    · exact ⟨1, by decide, by linarith [(hj 1).1], by linarith [(hj 1).2]⟩
    · exact ⟨2, by decide, by linarith [(hj 2).1], by linarith [(hj 2).2]⟩
  · simp [generate_content, MAX_RETRIES, generate_content_loop, hc0, hc1, hc2, hc3,
      hr0, hr1, hr2, hr3, attemptCount]
  · simp [generate_content, MAX_RETRIES, generate_content_loop, hc0, hc1, hc2, hc3,
      hr0, hr1, hr2, hr3, resetWindowCount]
  · simp [generate_content, MAX_RETRIES, generate_content_loop, hc0, hc1, hc2, hc3,
      hr0, hr1, hr2, hr3]
  · exact fun call2 jitter2 m s2 => generate_content_attempts_le call2 jitter2 m s2

def c5_call : ℕ → CallResult :=
  fun _ => CallResult.err "Rate limit reached: 429, quota exceeded"

def c5_jitter : ℕ → ℚ := fun _ => 3

/-- Witness for C5: every attempt rate-limited, jitter 3 within bounds. -/
theorem rate_limited_backoff_schedule_witness :
    (∀ n, n < MAX_RETRIES →
      ∃ m, c5_call n = CallResult.err m ∧ is_rate_limit_error (strLower m) = true) ∧
    (∀ n, 2 ≤ c5_jitter n ∧ c5_jitter n ≤ 8) ∧
    (generate_content c5_call c5_jitter MAX_RETRIES ⟨0, 0, 0, 0⟩).outcome =
      GenOutcome.rateLimitExceeded MAX_RETRIES ∧
    backoffSleeps (generate_content c5_call c5_jitter MAX_RETRIES ⟨0, 0, 0, 0⟩).trace =
      [INITIAL_RETRY_DELAY * 2 ^ 0 + c5_jitter 0, INITIAL_RETRY_DELAY * 2 ^ 1 + c5_jitter 1,
       INITIAL_RETRY_DELAY * 2 ^ 2 + c5_jitter 2] ∧
    attemptCount (generate_content c5_call c5_jitter MAX_RETRIES ⟨0, 0, 0, 0⟩).trace =
      MAX_RETRIES ∧
    (generate_content c5_call c5_jitter MAX_RETRIES ⟨0, 0, 0, 0⟩).state.api_call_count = 0 := by
  have h1 : ∀ n, n < MAX_RETRIES →
      ∃ m, c5_call n = CallResult.err m ∧ is_rate_limit_error (strLower m) = true :=
    fun n _ => ⟨"Rate limit reached: 429, quota exceeded", rfl, by with_unfolding_all decide⟩
  have h2 : ∀ n, 2 ≤ c5_jitter n ∧ c5_jitter n ≤ 8 :=
    fun n => ⟨by norm_num [c5_jitter], by norm_num [c5_jitter]⟩
  have h := rate_limited_backoff_schedule c5_call c5_jitter ⟨0, 0, 0, 0⟩ h1 h2
  exact ⟨h1, h2, h.1, h.2.1, h.2.2.2.1, h.2.2.2.2.2.1⟩

/-! ### C8: weight normalization sums to 100 and is idempotent -/

theorem roundHalfEven_intCast (z : ℤ) : roundHalfEven ((z : ℚ)) = z := by
  simp only [roundHalfEven, Int.floor_intCast, sub_self]
  norm_num

theorem pyRound2_int_div (z : ℤ) : pyRound2 ((z : ℚ) / 100) = (z : ℚ) / 100 := by
  unfold pyRound2
  rw [div_mul_cancel₀ _ (by norm_num : (100 : ℚ) ≠ 0), roundHalfEven_intCast]

/-- A rational with at most two decimal places. -/
def TwoDecimal (q : ℚ) : Prop := ∃ z : ℤ, q = (z : ℚ) / 100

theorem twoDecimal_pyRound2 (q : ℚ) : TwoDecimal (pyRound2 q) :=
  ⟨roundHalfEven (q * 100), rfl⟩

theorem twoDecimal_fix {q : ℚ} (h : TwoDecimal q) : pyRound2 q = q := by
  obtain ⟨z, rfl⟩ := h
  exact pyRound2_int_div z

theorem twoDecimal_sub {a b : ℚ} (ha : TwoDecimal a) (hb : TwoDecimal b) :
    TwoDecimal (a - b) := by
  obtain ⟨x, rfl⟩ := ha
  obtain ⟨y, rfl⟩ := hb
  exact ⟨x - y, by push_cast; ring⟩

theorem twoDecimal_add {a b : ℚ} (ha : TwoDecimal a) (hb : TwoDecimal b) :
    TwoDecimal (a + b) := by
  obtain ⟨x, rfl⟩ := ha
  obtain ⟨y, rfl⟩ := hb
  exact ⟨x + y, by push_cast; ring⟩

theorem twoDecimal_hundred : TwoDecimal 100 := ⟨10000, by norm_num⟩

theorem twoDecimal_sum (l : List ℚ) (h : ∀ x ∈ l, TwoDecimal x) : TwoDecimal l.sum := by
  induction l with
  | nil => exact ⟨0, by norm_num⟩
  | cons x xs ih =>
    rw [List.sum_cons]
    exact twoDecimal_add (h x (by simp)) (ih (fun y hy => h y (by simp [hy])))

theorem update_map_id (l : List (String × ℚ)) (k : String) (d : ℚ)
    (hk : k ∉ l.map Prod.fst) :
    l.map (fun p => if p.1 = k then (p.1, p.2 + d) else p) = l := by
  induction l with
  | nil => rfl
  | cons p ps ih =>
    rw [List.map_cons, List.mem_cons] at hk
    push_neg at hk
    rw [List.map_cons, if_neg (fun hc : p.1 = k => hk.1 hc.symm), ih hk.2]

theorem weightsSum_cons (p : String × ℚ) (l : List (String × ℚ)) :
    weightsSum (p :: l) = p.2 + weightsSum l := by
  simp [weightsSum]

theorem weightsSum_update (l : List (String × ℚ)) (k : String) (d : ℚ)
    (hnd : (l.map Prod.fst).Nodup) (hk : k ∈ l.map Prod.fst) :
    weightsSum (l.map (fun p => if p.1 = k then (p.1, p.2 + d) else p)) =
      weightsSum l + d := by
  induction l with
  | nil => simp at hk
  | cons p ps ih =>
    simp only [List.map_cons, List.nodup_cons] at hnd
    by_cases hpk : p.1 = k
    · rw [List.map_cons, if_pos hpk, weightsSum_cons, weightsSum_cons,
        update_map_id ps k d (hpk ▸ hnd.1)]
      ring
    · rw [List.map_cons, if_neg hpk, weightsSum_cons, weightsSum_cons]
      have hk' : k ∈ ps.map Prod.fst := by
        rw [List.map_cons] at hk
        rcases List.mem_cons.mp hk with h1 | h1
        · exact absurd h1.symm hpk
        · exact h1
      rw [ih hnd.2 hk']
      ring

theorem foldl_max_mem (ps : List (String × ℚ)) :
    ∀ p : String × ℚ,
      ps.foldl (fun best q => if best.2 < q.2 then q else best) p ∈ p :: ps := by
  induction ps with
  | nil => intro p; simp
  | cons q qs ih =>
    intro p
    rw [List.foldl_cons]
    rcases List.mem_cons.mp (ih (if p.2 < q.2 then q else p)) with h1 | h1
    · rw [h1]
      split_ifs
      · simp
      · simp
    · simp [h1]

theorem firstMaxKey_mem (w : List (String × ℚ)) (hw : w ≠ []) :
    firstMaxKey w ∈ w.map Prod.fst := by
  cases w with
  | nil => exact absurd rfl hw
  | cons p ps =>
    unfold firstMaxKey
    exact List.mem_map_of_mem Prod.fst (foldl_max_mem ps p)

theorem map_pair_fst (w : List (String × ℚ)) (g : String × ℚ → ℚ) :
    (w.map (fun p => (p.1, g p))).map Prod.fst = w.map Prod.fst := by
  rw [List.map_map]
  exact List.map_congr_left (fun p _ => rfl)

theorem normalize_weights_sum (w : List (String × ℚ))
    (hnd : (w.map Prod.fst).Nodup) (h : weightsSum w ≠ 0) :
    weightsSum (normalize_weights w) = 100 := by
  have hw : w ≠ [] := by
    rintro rfl
    exact h (by simp [weightsSum])
  simp only [normalize_weights]
  rw [if_neg h]
  set f : String × ℚ → String × ℚ :=
    fun p => (p.1, pyRound2 (p.2 / weightsSum w * 100)) with hf
  by_cases hd : (100 : ℚ) - weightsSum (w.map f) = 0
  · rw [if_neg (not_not_intro hd)]
    linarith
  · rw [if_pos hd]
    have hkeys : (w.map f).map Prod.fst = w.map Prod.fst := map_pair_fst w _
    have hnd' : ((w.map f).map Prod.fst).Nodup := by rw [hkeys]; exact hnd
    have hne : w.map f ≠ [] := by
      intro hc
      exact hw (List.map_eq_nil_iff.mp hc)
    have hk : firstMaxKey (w.map f) ∈ (w.map f).map Prod.fst :=
      firstMaxKey_mem (w.map f) hne
    rw [weightsSum_update (w.map f) (firstMaxKey (w.map f))
      (100 - weightsSum (w.map f)) hnd' hk]
    ring

theorem normalize_weights_values (w : List (String × ℚ)) (h : weightsSum w ≠ 0) :
    ∀ p ∈ normalize_weights w, TwoDecimal p.2 := by
  simp only [normalize_weights]
  rw [if_neg h]
  set f : String × ℚ → String × ℚ :=
    fun p => (p.1, pyRound2 (p.2 / weightsSum w * 100)) with hf
  have hvals : ∀ p ∈ w.map f, TwoDecimal p.2 := by
    intro p hp
    obtain ⟨q, _, rfl⟩ := List.mem_map.mp hp
    exact twoDecimal_pyRound2 _
  have hdiffdec : TwoDecimal (100 - weightsSum (w.map f)) := by
    refine twoDecimal_sub twoDecimal_hundred ?_
    unfold weightsSum
    refine twoDecimal_sum _ ?_
    intro x hx
    obtain ⟨q, hq, rfl⟩ := List.mem_map.mp hx
    exact hvals q hq
  by_cases hd : (100 : ℚ) - weightsSum (w.map f) = 0
  · rw [if_neg (not_not_intro hd)]
    exact hvals
  · rw [if_pos hd]
    intro p hp
    obtain ⟨q, hq, rfl⟩ := List.mem_map.mp hp
    by_cases hqk : q.1 = firstMaxKey (w.map f)
    · rw [if_pos hqk]
      exact twoDecimal_add (hvals q hq) hdiffdec
    · rw [if_neg hqk]
      exact hvals q hq

theorem normalize_weights_fixed (N : List (String × ℚ))
    (hsum : weightsSum N = 100) (hvals : ∀ p ∈ N, TwoDecimal p.2) :
    normalize_weights N = N := by
  simp only [normalize_weights]
  rw [hsum]
  rw [if_neg (by norm_num : ¬ (100 : ℚ) = 0)]
  have hmap : N.map (fun p => (p.1, pyRound2 (p.2 / 100 * 100))) = N := by
    have hpt : ∀ p ∈ N, (p.1, pyRound2 (p.2 / 100 * 100)) = p := by
      intro p hp
      rw [div_mul_cancel₀ p.2 (by norm_num : (100 : ℚ) ≠ 0),
        twoDecimal_fix (hvals p hp)]
    calc N.map (fun p => (p.1, pyRound2 (p.2 / 100 * 100)))
        = N.map id := List.map_congr_left (fun p hp => hpt p hp)
      _ = N := List.map_id N
  rw [hmap, hsum]
  rw [if_neg (by norm_num : ¬ ((100 : ℚ) - 100 ≠ 0))]

/-- Claim C8: for every weight map with distinct keys and nonzero total,
`normalize_weights` yields values summing to exactly 100 (proportional
rescale with the rounding remainder assigned to the first key of maximal
weight), and it is idempotent: normalizing twice equals normalizing
once. -/
theorem normalize_weights_sums_100_idempotent (w : List (String × ℚ))
    (hnd : (w.map Prod.fst).Nodup) (h : weightsSum w ≠ 0) :
    weightsSum (normalize_weights w) = 100 ∧
    normalize_weights (normalize_weights w) = normalize_weights w := by
  have h1 := normalize_weights_sum w hnd h
  exact ⟨h1, normalize_weights_fixed _ h1 (normalize_weights_values w h)⟩

/-- Witness for C8 at the weight map a=1, b=1, c=1 (rescaled to
33.34/33.33/33.33). -/
theorem normalize_weights_sums_100_idempotent_witness :
    (([("a", (1 : ℚ)), ("b", 1), ("c", 1)].map Prod.fst).Nodup) ∧
    weightsSum [("a", (1 : ℚ)), ("b", 1), ("c", 1)] ≠ 0 ∧
    weightsSum (normalize_weights [("a", (1 : ℚ)), ("b", 1), ("c", 1)]) = 100 ∧
    normalize_weights (normalize_weights [("a", (1 : ℚ)), ("b", 1), ("c", 1)]) =
      normalize_weights [("a", (1 : ℚ)), ("b", 1), ("c", 1)] := by
  have hnd : (([("a", (1 : ℚ)), ("b", 1), ("c", 1)].map Prod.fst).Nodup) := by
    with_unfolding_all decide
  have h : weightsSum [("a", (1 : ℚ)), ("b", 1), ("c", 1)] ≠ 0 := by
    with_unfolding_all decide
  have hmain := normalize_weights_sums_100_idempotent
    [("a", (1 : ℚ)), ("b", 1), ("c", 1)] hnd h
  exact ⟨hnd, h, hmain.1, hmain.2⟩
